import Mathlib

/-!
# Verification of the replizuploader quota-gated upload & lifecycle pipeline

Shallow embedding of the core of the repository:

* `src/lib/quota.ts` — the quota ledger (`checkQuota`, `incrementQuota`,
  `decrementQuota`);
* `src/lib/cleanup.ts` — the lifecycle reaper (`cleanupExpiredFiles`,
  `deleteUpload`);
* `src/routes/upload.ts` — the upload endpoint (`handleUpload` below embeds
  the `upload.post('/upload')` handler branch by branch).

Timestamps are modelled as integer milliseconds since the epoch
(`Date.getTime()`); JS numbers on the quota counters are modelled as `Int`
so that the zero-clamping in `decrementQuota` is a real operation.
External collaborators (the R2 object store's `delete`, the Repliz
`createSchedule` call, `getAccounts`) are modelled as oracles returning
`Except String`, matching the `try`/`catch` structure of the source.
-/

namespace Repliz

/-! ## Constants from `src/lib/constants.ts` and `src/lib/utils.ts` -/

def MAX_DAILY_UPLOADS : Int := 10

def MAX_MONTHLY_UPLOADS : Int := 100

def MAX_DAILY_BYTES : Int := 500 * 1024 * 1024

def MAX_MONTHLY_BYTES : Int := 5 * 1024 * 1024 * 1024

def FILE_RETENTION_HOURS : Int := 48

def MAX_FILE_SIZE : Int := 50 * 1024 * 1024

def ALLOWED_VIDEO_TYPES : List String :=
  ["video/mp4", "video/mpeg", "video/quicktime", "video/x-msvideo", "video/webm"]

/-- `24 * 60 * 60 * 1000` from the daily-reset block of `checkQuota`. -/
def dayInMs : Int := 24 * 60 * 60 * 1000

/-- `30 * 24 * 60 * 60 * 1000` from the monthly-reset block of `checkQuota`. -/
def monthInMs : Int := 30 * 24 * 60 * 60 * 1000

/-! ## Data model (`src/db/schema.ts`) -/

/-- Row of the `user_quotas` table. -/
structure QuotaRecord where
  id : String
  userId : String
  dailyUploads : Int
  monthlyUploads : Int
  dailyBytesUsed : Int
  monthlyBytesUsed : Int
  lastResetDaily : Int
  lastResetMonthly : Int
  updatedAt : Int
deriving DecidableEq, Repr

/-- Row of the `uploads` table. -/
structure UploadRecord where
  id : String
  userId : String
  filename : String
  fileSizeBytes : Int
  mimeType : String
  title : String
  description : String
  uploadedAt : Int
  scheduledDeletionAt : Int
  isDeleted : Bool
  deletedAt : Option Int
deriving DecidableEq, Repr

/-! ## Quota ledger (`src/lib/quota.ts`)

All three operations are keyed by a single `userId`, so the stored state a
call can observe is that user's row: an `Option QuotaRecord` (`none` when the
`select ... where userId` finds no row). -/

/-- The `current` snapshot embedded in a `QuotaStatus`. -/
structure QuotaCurrent where
  dailyUploads : Int
  monthlyUploads : Int
  dailyBytes : Int
  monthlyBytes : Int
deriving DecidableEq, Repr

/-- Return shape of `checkQuota` (the `limits` field is the constant
`QUOTA_LIMITS` table and is omitted). -/
structure QuotaStatus where
  allowed : Bool
  reason : Option String
  current : QuotaCurrent
deriving DecidableEq, Repr

/-- The zeroed row inserted by `checkQuota` when the user has none
(`Initialize quota for new user` block). -/
def initQuotaRecord (newId userId : String) (now : Int) : QuotaRecord :=
  { id := newId, userId := userId,
    dailyUploads := 0, monthlyUploads := 0,
    dailyBytesUsed := 0, monthlyBytesUsed := 0,
    lastResetDaily := now, lastResetMonthly := now, updatedAt := now }

/-- The daily-window reset block of `checkQuota`: when 24 hours have passed
since `lastResetDaily`, zero the daily fields only. -/
def applyDailyReset (now : Int) (q : QuotaRecord) : QuotaRecord :=
  if now - q.lastResetDaily ≥ dayInMs then
    { q with dailyUploads := 0, dailyBytesUsed := 0,
             lastResetDaily := now, updatedAt := now }
  else q

/-- The monthly-window reset block of `checkQuota`: when 30 days have passed
since `lastResetMonthly`, zero the monthly fields only. -/
def applyMonthlyReset (now : Int) (q : QuotaRecord) : QuotaRecord :=
  if now - q.lastResetMonthly ≥ monthInMs then
    { q with monthlyUploads := 0, monthlyBytesUsed := 0,
             lastResetMonthly := now, updatedAt := now }
  else q

/-- The get-or-create plus lazy-reset phase of `checkQuota`, in source
order: fetch or insert the row, then the daily block, then the monthly
block. -/
def lazyResetRecord (newId userId : String) (now : Int)
    (st : Option QuotaRecord) : QuotaRecord :=
  applyMonthlyReset now (applyDailyReset now
    (match st with
     | some q => q
     | none => initQuotaRecord newId userId now))

/-- `checkQuota(db, userId, fileSizeBytes)` from `src/lib/quota.ts`.

`newId` stands for the `generateId()` result used when the row is lazily
created, `now` for `getCurrentTimestamp()`.  Returns the `QuotaStatus`
together with the user's row after the call (the function inserts a zeroed
row when none exists and writes back the lazy daily/monthly window resets,
exactly as the source does). -/
def checkQuota (newId userId : String) (now fileSizeBytes : Int)
    (st : Option QuotaRecord) : QuotaStatus × Option QuotaRecord :=
  let q2 : QuotaRecord := lazyResetRecord newId userId now st
  let st2 : Option QuotaRecord := some q2
  let current : QuotaCurrent :=
    { dailyUploads := q2.dailyUploads, monthlyUploads := q2.monthlyUploads,
      dailyBytes := q2.dailyBytesUsed, monthlyBytes := q2.monthlyBytesUsed }
  if q2.dailyUploads ≥ MAX_DAILY_UPLOADS then
    ({ allowed := false, reason := some "Daily upload limit exceeded",
       current := current }, st2)
  else if q2.monthlyUploads ≥ MAX_MONTHLY_UPLOADS then
    ({ allowed := false, reason := some "Monthly upload limit exceeded",
       current := current }, st2)
  else if q2.dailyBytesUsed + fileSizeBytes > MAX_DAILY_BYTES then
    ({ allowed := false, reason := some "Daily bandwidth limit exceeded",
       current := current }, st2)
  else if q2.monthlyBytesUsed + fileSizeBytes > MAX_MONTHLY_BYTES then
    ({ allowed := false, reason := some "Monthly bandwidth limit exceeded",
       current := current }, st2)
  else
    ({ allowed := true, reason := none, current := current }, st2)

/-- `incrementQuota(db, userId, fileSizeBytes)`: throws
`'Quota record not found'` when the row is missing, otherwise adds 1 to both
counts and `fileSizeBytes` to both byte totals. -/
def incrementQuota (fileSizeBytes now : Int)
    (st : Option QuotaRecord) : Except String (Option QuotaRecord) :=
  match st with
  | none => .error "Quota record not found"
  | some q =>
      .ok (some { q with
        dailyUploads := q.dailyUploads + 1,
        monthlyUploads := q.monthlyUploads + 1,
        dailyBytesUsed := q.dailyBytesUsed + fileSizeBytes,
        monthlyBytesUsed := q.monthlyBytesUsed + fileSizeBytes,
        updatedAt := now })

/-- `decrementQuota(db, userId, fileSizeBytes)`: a no-op when the row is
missing, otherwise subtracts with `Math.max(0, ...)` clamping. -/
def decrementQuota (fileSizeBytes now : Int)
    (st : Option QuotaRecord) : Option QuotaRecord :=
  match st with
  | none => none
  | some q =>
      some { q with
        dailyUploads := max 0 (q.dailyUploads - 1),
        monthlyUploads := max 0 (q.monthlyUploads - 1),
        dailyBytesUsed := max 0 (q.dailyBytesUsed - fileSizeBytes),
        monthlyBytesUsed := max 0 (q.monthlyBytesUsed - fileSizeBytes),
        updatedAt := now }

/-! Sequences of ledger mutations, for the never-negative invariant. -/

/-- One call to `incrementQuota` or `decrementQuota` (its `fileSizeBytes`
argument and the wall-clock time of the call). -/
inductive QuotaOp where
  | inc (fileSizeBytes now : Int)
  | dec (fileSizeBytes now : Int)
deriving DecidableEq, Repr

/-- The `fileSizeBytes` argument of a call. -/
def QuotaOp.bytes : QuotaOp → Int
  | .inc b _ => b
  | .dec b _ => b

/-- Effect of one call on the stored row; a failed `incrementQuota`
(missing row) leaves the store unchanged. -/
def applyQuotaOp (st : Option QuotaRecord) (op : QuotaOp) : Option QuotaRecord :=
  match op with
  | .inc b n =>
      match incrementQuota b n st with
      | .ok st' => st'
      | .error _ => st
  | .dec b n => decrementQuota b n st

/-- Run a sequence of ledger calls left to right. -/
def runQuotaOps (st : Option QuotaRecord) (ops : List QuotaOp) : Option QuotaRecord :=
  ops.foldl applyQuotaOp st

/-- All four numeric fields of the stored row are non-negative (vacuously
true when no row exists). -/
def quotaNonneg : Option QuotaRecord → Prop
  | none => True
  | some q =>
      0 ≤ q.dailyUploads ∧ 0 ≤ q.monthlyUploads ∧
      0 ≤ q.dailyBytesUsed ∧ 0 ≤ q.monthlyBytesUsed

instance : DecidablePred quotaNonneg := fun st =>
  match st with
  | none => isTrue trivial
  | some _ => inferInstanceAs (Decidable (_ ∧ _ ∧ _ ∧ _))

/-! ## Helper lemmas on the ledger -/

/-- One non-negative-bytes call preserves non-negativity of all four fields. -/
theorem applyQuotaOp_nonneg (st : Option QuotaRecord) (op : QuotaOp)
    (hb : 0 ≤ op.bytes) (h : quotaNonneg st) : quotaNonneg (applyQuotaOp st op) := by
  cases op with
  | inc b n =>
      cases st with
      | none => simpa [applyQuotaOp, incrementQuota] using h
      | some q =>
          obtain ⟨h1, h2, h3, h4⟩ := h
          simp only [QuotaOp.bytes] at hb
          simp only [applyQuotaOp, incrementQuota, quotaNonneg]
          refine ⟨by omega, by omega, by omega, by omega⟩
  | dec b n =>
      cases st with
      | none => simp [applyQuotaOp, decrementQuota, quotaNonneg]
      | some q =>
          simp only [applyQuotaOp, decrementQuota, quotaNonneg]
          refine ⟨le_max_left _ _, le_max_left _ _, le_max_left _ _, le_max_left _ _⟩

/-- The stored state after `checkQuota` is exactly the lazy-reset result,
independent of the incoming file size and of which admission branch fires. -/
theorem checkQuota_snd (newId userId : String) (now fileSizeBytes : Int)
    (st : Option QuotaRecord) :
    (checkQuota newId userId now fileSizeBytes st).2 =
      some (lazyResetRecord newId userId now st) := by
  simp only [checkQuota]
  split
  · rfl
  · split
    · rfl
    · split
      · rfl
      · split <;> rfl

/-! ## Lifecycle store & reaper (`src/lib/cleanup.ts`)

The R2 bucket's `delete` is an external collaborator that may throw; it is
modelled as an oracle `String → Except String Unit` keyed by filename. -/

/-- The sweep's selection predicate:
`isDeleted = false AND scheduledDeletionAt ≤ now`. -/
def isExpired (now : Int) (u : UploadRecord) : Bool :=
  (!u.isDeleted) && decide (u.scheduledDeletionAt ≤ now)

/-- The `update(uploads).set(isDeleted:true, deletedAt:now).where(id = recId)`
query. -/
def markDeleted (recId : String) (now : Int)
    (db : List UploadRecord) : List UploadRecord :=
  db.map (fun v =>
    if v.id = recId then { v with isDeleted := true, deletedAt := some now } else v)

/-- Aggregate returned by `cleanupExpiredFiles`. -/
structure SweepResult where
  deleted : Nat
  failed : Nat
  errors : List String
deriving DecidableEq, Repr

/-- One iteration of the `for (const upload of expiredUploads)` loop: try the
R2 delete then the mark-deleted update; on a throw, count the failure and
append `filename: message` to `errors` without touching the store. -/
def sweepStep (r2delete : String → Except String Unit) (now : Int)
    (acc : SweepResult × List UploadRecord) (u : UploadRecord) :
    SweepResult × List UploadRecord :=
  match r2delete u.filename with
  | .ok _ =>
      ({ acc.1 with deleted := acc.1.deleted + 1 }, markDeleted u.id now acc.2)
  | .error e =>
      ({ acc.1 with failed := acc.1.failed + 1,
                    errors := acc.1.errors ++ [u.filename ++ ": " ++ e] }, acc.2)

/-- `cleanupExpiredFiles(db, r2Bucket)` from `src/lib/cleanup.ts`: select the
expired records up front, then process each independently, returning the
aggregate counts together with the uploads table after the sweep. -/
def cleanupExpiredFiles (r2delete : String → Except String Unit) (now : Int)
    (db : List UploadRecord) : SweepResult × List UploadRecord :=
  let expiredUploads := db.filter (isExpired now)
  if expiredUploads.length = 0 then
    ({ deleted := 0, failed := 0, errors := [] }, db)
  else
    expiredUploads.foldl (sweepStep r2delete now)
      ({ deleted := 0, failed := 0, errors := [] }, db)

/-- `calculateDeletionTime()` from `src/lib/cleanup.ts`:
`now + FILE_RETENTION_HOURS` in milliseconds. -/
def calculateDeletionTime (now : Int) : Int :=
  now + FILE_RETENTION_HOURS * 60 * 60 * 1000

/-- `deleteUpload(db, r2Bucket, filename)` from `src/lib/cleanup.ts`: delete
the object from R2, then mark the matching record (if any) deleted; a throw
from the R2 delete is re-thrown to the caller. -/
def deleteUpload (r2delete : String → Except String Unit) (now : Int)
    (filename : String) (db : List UploadRecord) :
    Except String (List UploadRecord) :=
  match r2delete filename with
  | .error e => .error e
  | .ok _ =>
      match db.find? (fun u => u.filename == filename) with
      | some u => .ok (markDeleted u.id now db)
      | none => .ok db

/-! ## Upload endpoint (`src/routes/upload.ts`)

`handleUpload` embeds the `upload.post('/upload')` handler.  The multipart
request and the ambient checks that precede validation are captured by an
`UploadRequest`; `getAccounts` and `createSchedule` are oracles; the R2
bucket, the user's `user_quotas` row and the `uploads` table form the
`PipelineState` the handler can mutate. -/

/-- A connected Repliz account (`ReplizAccount` in `src/lib/repliz.ts`;
`accountId` embeds the `_id` field). -/
structure ReplizAccount where
  accountId : String
  name : String
  username : String
  type : String
  isConnected : Bool
deriving DecidableEq, Repr

/-- One media entry of a schedule payload. -/
structure MediaItem where
  type : String
  url : String
  thumbnail : String
deriving DecidableEq, Repr

/-- `SchedulePayload` from `src/lib/repliz.ts`. -/
structure SchedulePayload where
  title : String
  description : String
  type : String
  medias : List MediaItem
  scheduleAt : String
  accountId : String
deriving DecidableEq, Repr

/-- Per-account outcome (`UploadResult` in `src/routes/upload.ts`). -/
inductive UploadStatus where
  | success
  | error
deriving DecidableEq, Repr

structure UploadResult where
  accountId : String
  accountName : String
  accountType : String
  status : UploadStatus
  error : Option String
deriving DecidableEq, Repr

/-- `r.status === 'success'`. -/
def UploadResult.isSuccess (r : UploadResult) : Bool :=
  match r.status with
  | .success => true
  | .error => false

/-- The fields of the multipart request and ambient configuration observed
by the handler before the fan-out. -/
structure UploadRequest where
  hasKeys : Bool
  hasSecret : Bool
  hasVideo : Bool
  hasTitle : Bool
  hasDescription : Bool
  metadataValid : Bool
  videoType : String
  videoSize : Int
  title : String
  description : String
  platforms : Option (List String)
deriving DecidableEq, Repr

/-- The JSON responses the handler can produce, tagged by branch. -/
inductive UploadResponse where
  | errorKeysNotFound
  | errorSecretNotSet
  | errorMissingFields
  | errorGeneric
  | errorInvalidFileType
  | errorUnsupportedType
  | errorFileTooLarge
  | errorGetAccounts (msg : String)
  | errorNoAccounts
  | errorAllFailed (results : List UploadResult)
  | success (results : List UploadResult)
deriving DecidableEq, Repr

/-- The `statusCode` each response body carries. -/
def UploadResponse.statusCode : UploadResponse → Int
  | .errorKeysNotFound => 400
  | .errorSecretNotSet => 500
  | .errorMissingFields => 400
  | .errorGeneric => 500
  | .errorInvalidFileType => 400
  | .errorUnsupportedType => 400
  | .errorFileTooLarge => 400
  | .errorGetAccounts _ => 400
  | .errorNoAccounts => 400
  | .errorAllFailed _ => 500
  | .success _ => 200

/-- The stores the handler can touch: the R2 bucket (set of keys present),
the requesting user's `user_quotas` row, and the `uploads` table. -/
structure PipelineState where
  r2 : List String
  quota : Option QuotaRecord
  uploads : List UploadRecord
deriving DecidableEq, Repr

/-- `c.env.UPLOADS.put(filename, ...)`. -/
def r2put (key : String) (r2 : List String) : List String := key :: r2

/-- `c.env.UPLOADS.delete(filename)`. -/
def r2deleteKey (key : String) (r2 : List String) : List String :=
  r2.filter (fun k => k ≠ key)

/-- The public media URL derived from the stored object's key. -/
def videoUrl (filename : String) : String :=
  "https://post.komen.autos/" ++ filename

/-- Metadata shared by every schedule call of one upload. -/
structure UploadContext where
  title : String
  description : String
  scheduleAt : String
  filename : String
deriving DecidableEq, Repr

/-- The payload built for one account: `type` is `"video"` for TikTok and
`"image"` for every other platform. -/
def buildPayload (ctx : UploadContext) (account : ReplizAccount) : SchedulePayload :=
  let scheduleType := if account.type = "tiktok" then "video" else "image"
  { title := ctx.title, description := ctx.description, type := scheduleType,
    medias := [{ type := "video", url := videoUrl ctx.filename,
                 thumbnail := videoUrl ctx.filename }],
    scheduleAt := ctx.scheduleAt, accountId := account.accountId }

/-- The body of one loop iteration: call `createSchedule` once and record
either a success result or an error result carrying the thrown message. -/
def scheduleFor (oracle : SchedulePayload → Except String Unit)
    (ctx : UploadContext) (account : ReplizAccount) : UploadResult :=
  match oracle (buildPayload ctx account) with
  | .ok _ =>
      { accountId := account.accountId, accountName := account.name,
        accountType := account.type, status := .success, error := none }
  | .error e =>
      { accountId := account.accountId, accountName := account.name,
        accountType := account.type, status := .error, error := some e }

/-- The `for (const account of targetAccounts)` loop with its `results.push`
accumulator. -/
def fanOutLoop (oracle : SchedulePayload → Except String Unit)
    (ctx : UploadContext) :
    List ReplizAccount → List UploadResult → List UploadResult
  | [], results => results
  | account :: rest, results =>
      fanOutLoop oracle ctx rest (results ++ [scheduleFor oracle ctx account])

/-- The caller-supplied platform filter: with a `platforms` form field the
accounts whose `type` is listed, otherwise all accounts. -/
def targetAccountsOf (req : UploadRequest)
    (accounts : List ReplizAccount) : List ReplizAccount :=
  match req.platforms with
  | some ps => accounts.filter (fun a => ps.contains a.type)
  | none => accounts

/-- `s.startsWith p`, expressed over the character list of the string. -/
def strStartsWith (s p : String) : Bool :=
  decide (s.toList.take p.toList.length = p.toList)

/-- All the validation checks the handler performs before writing to R2, in
source order. -/
def validationOk (req : UploadRequest) : Bool :=
  req.hasKeys && req.hasSecret &&
  (req.hasVideo && req.hasTitle && req.hasDescription) &&
  req.metadataValid &&
  strStartsWith req.videoType "video/" &&
  ALLOWED_VIDEO_TYPES.contains req.videoType &&
  decide (req.videoSize ≤ MAX_FILE_SIZE)

/-- The handler from the first R2 `put` onward: store the object, resolve the
accounts (failure or an empty list deletes the object and rejects), filter
the targets, fan out, and answer 500 when no call succeeded. -/
def handleUploadAfterValidation (req : UploadRequest)
    (filename scheduleAt : String)
    (getAccountsResult : Except String (List ReplizAccount))
    (oracle : SchedulePayload → Except String Unit)
    (st : PipelineState) : UploadResponse × PipelineState :=
  let st1 : PipelineState := { st with r2 := r2put filename st.r2 }
  match getAccountsResult with
  | .error e =>
      (.errorGetAccounts e, { st1 with r2 := r2deleteKey filename st1.r2 })
  | .ok accounts =>
      if accounts.length = 0 then
        (.errorNoAccounts, { st1 with r2 := r2deleteKey filename st1.r2 })
      else
        let targetAccounts := targetAccountsOf req accounts
        let ctx : UploadContext :=
          { title := req.title, description := req.description,
            scheduleAt := scheduleAt, filename := filename }
        let results := fanOutLoop oracle ctx targetAccounts []
        let successCount := (results.filter UploadResult.isSuccess).length
        if successCount = 0 then (.errorAllFailed results, st1)
        else (.success results, st1)

/-- `upload.post('/upload')` from `src/routes/upload.ts`, branch by branch.

`filename` stands for the generated storage key, `scheduleAt` for the ISO
timestamp taken at fan-out time.  A `ZodError` from the metadata schema is
caught by the handler's catch-all before any R2 write, hence the
`errorGeneric` branch. -/
def handleUpload (req : UploadRequest) (filename scheduleAt : String)
    (getAccountsResult : Except String (List ReplizAccount))
    (oracle : SchedulePayload → Except String Unit)
    (st : PipelineState) : UploadResponse × PipelineState :=
  if !req.hasKeys then (.errorKeysNotFound, st)
  else if !req.hasSecret then (.errorSecretNotSet, st)
  else if !(req.hasVideo && req.hasTitle && req.hasDescription) then
    (.errorMissingFields, st)
  else if !req.metadataValid then (.errorGeneric, st)
  else if !(strStartsWith req.videoType "video/") then (.errorInvalidFileType, st)
  else if !(ALLOWED_VIDEO_TYPES).contains req.videoType then
    (.errorUnsupportedType, st)
  else if req.videoSize > MAX_FILE_SIZE then (.errorFileTooLarge, st)
  else handleUploadAfterValidation req filename scheduleAt getAccountsResult oracle st

/-! ## Helper lemmas -/

/-- A request passing every validation check reaches the post-validation
part of the handler. -/
theorem handleUpload_of_validationOk (req : UploadRequest)
    (filename scheduleAt : String)
    (g : Except String (List ReplizAccount))
    (oracle : SchedulePayload → Except String Unit)
    (st : PipelineState) (hv : validationOk req = true) :
    handleUpload req filename scheduleAt g oracle st =
      handleUploadAfterValidation req filename scheduleAt g oracle st := by
  simp only [validationOk, Bool.and_eq_true, decide_eq_true_eq] at hv
  obtain ⟨⟨⟨⟨⟨⟨h1, h2⟩, ⟨⟨h3, h4⟩, h5⟩⟩, h6⟩, h7⟩, h8⟩, h9⟩ := hv
  have h8m : req.videoType ∈ ALLOWED_VIDEO_TYPES := by simpa using h8
  simp [handleUpload, h1, h2, h3, h4, h5, h6, h7, h8, h8m, not_lt.mpr h9]

/-- The push loop of the fan-out appends one result per account, in order. -/
theorem fanOutLoop_eq (oracle : SchedulePayload → Except String Unit)
    (ctx : UploadContext) (accounts : List ReplizAccount)
    (res : List UploadResult) :
    fanOutLoop oracle ctx accounts res =
      res ++ accounts.map (scheduleFor oracle ctx) := by
  induction accounts generalizing res with
  | nil => simp [fanOutLoop]
  | cons a rest ih => simp [fanOutLoop, ih]

/-- Deleting a freshly generated key right after putting it restores the
bucket exactly when the key was fresh. -/
theorem r2deleteKey_put_fresh (key : String) (r2 : List String)
    (h : key ∉ r2) : r2deleteKey key (r2put key r2) = r2 := by
  have hall : ∀ a ∈ r2, (decide (a ≠ key)) = true := fun a ha => by
    simp only [ne_eq, decide_eq_true_eq]
    exact fun e => h (e ▸ ha)
  simp [r2put, r2deleteKey, List.filter_cons, List.filter_eq_self.mpr hall]
  exact fun a ha e => h (e ▸ ha)

/-- Splitting a list by a Boolean predicate preserves its length. -/
theorem length_filter_add_length_filter_not {α : Type} (p : α → Bool)
    (l : List α) :
    (l.filter p).length + (l.filter (fun a => !(p a))).length = l.length := by
  induction l with
  | nil => rfl
  | cons a l ih => cases h : p a <;> simp [List.filter_cons, h] <;> omega

/-- Whether the sweep's R2 delete for a record succeeds. -/
def isOkDelete (r2delete : String → Except String Unit)
    (u : UploadRecord) : Bool :=
  match r2delete u.filename with
  | .ok _ => true
  | .error _ => false

/-- The `errors` entry the sweep produces for a record, when its delete
throws. -/
def sweepErrEntry (r2delete : String → Except String Unit)
    (u : UploadRecord) : Option String :=
  match r2delete u.filename with
  | .ok _ => none
  | .error e => some (u.filename ++ ": " ++ e)

/-- Characterisation of the sweep loop: the counters accumulate one unit per
processed record, split by delete outcome, and `errors` collects exactly the
failures, independent of the position of any failure. -/
theorem sweep_foldl_spec (r2delete : String → Except String Unit) (now : Int)
    (l : List UploadRecord) (acc : SweepResult × List UploadRecord) :
    (l.foldl (sweepStep r2delete now) acc).1.deleted =
        acc.1.deleted + (l.filter (isOkDelete r2delete)).length
    ∧ (l.foldl (sweepStep r2delete now) acc).1.failed =
        acc.1.failed + (l.filter (fun u => !(isOkDelete r2delete u))).length
    ∧ (l.foldl (sweepStep r2delete now) acc).1.errors =
        acc.1.errors ++ l.filterMap (sweepErrEntry r2delete) := by
  induction l generalizing acc with
  | nil => simp
  | cons u rest ih =>
      obtain ⟨ih1, ih2, ih3⟩ := ih (sweepStep r2delete now acc u)
      cases h : r2delete u.filename with
      | ok v =>
          cases v
          refine ⟨?_, ?_, ?_⟩
          · rw [List.foldl_cons, ih1]
            simp [sweepStep, h, List.filter_cons, isOkDelete]
            omega
          · rw [List.foldl_cons, ih2]
            simp [sweepStep, h, List.filter_cons, isOkDelete]
          · rw [List.foldl_cons, ih3]
            simp [sweepStep, h, List.filterMap_cons, sweepErrEntry]
      | error e =>
          refine ⟨?_, ?_, ?_⟩
          · rw [List.foldl_cons, ih1]
            simp [sweepStep, h, List.filter_cons, isOkDelete]
          · rw [List.foldl_cons, ih2]
            simp [sweepStep, h, List.filter_cons, isOkDelete]
            omega
          · rw [List.foldl_cons, ih3]
            simp [sweepStep, h, List.filterMap_cons, sweepErrEntry]

/-- `find?` by filename commutes with the mark-deleted update, which
preserves every record's filename. -/
theorem markDeleted_find? (recId : String) (now : Int) (f : String)
    (db : List UploadRecord) :
    (markDeleted recId now db).find? (fun u => u.filename == f) =
      (db.find? (fun u => u.filename == f)).map
        (fun u => if u.id = recId then
          { u with isDeleted := true, deletedAt := some now } else u) := by
  have hp : ((fun u : UploadRecord => u.filename == f) ∘
      (fun v : UploadRecord => if v.id = recId then
        { v with isDeleted := true, deletedAt := some now } else v)) =
      (fun u : UploadRecord => u.filename == f) := by
    funext u
    by_cases h : u.id = recId <;> simp [Function.comp, h]
  simp only [markDeleted, List.find?_map, hp]

/-- Re-marking the same record overwrites the first mark. -/
theorem markDeleted_markDeleted (recId : String) (n1 n2 : Int)
    (db : List UploadRecord) :
    markDeleted recId n2 (markDeleted recId n1 db) =
      markDeleted recId n2 db := by
  have hg : ((fun v : UploadRecord => if v.id = recId then
        { v with isDeleted := true, deletedAt := some n2 } else v) ∘
      (fun v : UploadRecord => if v.id = recId then
        { v with isDeleted := true, deletedAt := some n1 } else v)) =
      (fun v : UploadRecord => if v.id = recId then
        { v with isDeleted := true, deletedAt := some n2 } else v) := by
    funext u
    by_cases h : u.id = recId <;> simp [Function.comp, h]
  simp only [markDeleted, List.map_map, hg]

/-- `errors` gains exactly one entry per failed record. -/
theorem sweepErrEntry_length (r2delete : String → Except String Unit)
    (l : List UploadRecord) :
    (l.filterMap (sweepErrEntry r2delete)).length =
      (l.filter (fun u => !(isOkDelete r2delete u))).length := by
  induction l with
  | nil => rfl
  | cons u rest ih =>
      cases h : r2delete u.filename <;>
        simp [List.filterMap_cons, List.filter_cons, sweepErrEntry, isOkDelete,
          h, ih]

/-- A sequence of ledger calls with non-negative byte arguments keeps all
four fields non-negative. -/
theorem runQuotaOps_nonneg (ops : List QuotaOp) (st : Option QuotaRecord)
    (hb : ∀ op ∈ ops, 0 ≤ op.bytes) (h0 : quotaNonneg st) :
    quotaNonneg (runQuotaOps st ops) := by
  induction ops generalizing st with
  | nil => exact h0
  | cons op rest ih =>
      simp only [runQuotaOps, List.foldl_cons]
      exact ih (applyQuotaOp st op) (fun o ho => hb o (List.mem_cons_of_mem _ ho))
        (applyQuotaOp_nonneg st op (hb op (List.mem_cons_self _ _)) h0)

/-! ## Claims -/

/-- **C3**: the sweep selects exactly the records with `isDeleted = false`
and `scheduledDeletionAt ≤ now`; every selected record is attempted, an
exception on one record increments `failed` and appends its entry to
`errors` without aborting the sweep, so `deleted + failed` equals the number
of selected records and `errors` has one entry per failure. -/
theorem C3_sweep_isolation (r2delete : String → Except String Unit)
    (now : Int) (db : List UploadRecord) :
    (cleanupExpiredFiles r2delete now db).1.deleted +
        (cleanupExpiredFiles r2delete now db).1.failed =
      (db.filter (fun u =>
        (!u.isDeleted) && decide (u.scheduledDeletionAt ≤ now))).length
    ∧ (cleanupExpiredFiles r2delete now db).1.errors.length =
        (cleanupExpiredFiles r2delete now db).1.failed
    ∧ (cleanupExpiredFiles r2delete now db).1.deleted =
        ((db.filter (isExpired now)).filter (isOkDelete r2delete)).length
    ∧ (cleanupExpiredFiles r2delete now db).1.errors =
        (db.filter (isExpired now)).filterMap (sweepErrEntry r2delete) := by
  have hsel : db.filter (fun u =>
      (!u.isDeleted) && decide (u.scheduledDeletionAt ≤ now)) =
      db.filter (isExpired now) := rfl
  rw [hsel]
  by_cases hlen : (db.filter (isExpired now)).length = 0
  · have hnil : db.filter (isExpired now) = [] := List.length_eq_zero.mp hlen
    simp [cleanupExpiredFiles, hnil]
  · obtain ⟨h1, h2, h3⟩ := sweep_foldl_spec r2delete now
      (db.filter (isExpired now)) (⟨0, 0, []⟩, db)
    simp only [cleanupExpiredFiles, if_neg hlen]
    rw [h1, h2, h3]
    simp only [Nat.zero_add, List.nil_append]
    refine ⟨length_filter_add_length_filter_not _ _,
      sweepErrEntry_length r2delete _, ?_, ?_⟩ <;> trivial

/-- **C4**: the fan-out produces exactly one result per target account, in
order; an account whose remote call throws gets an error result carrying the
thrown message while every other account's result is computed from its own
call alone, with no abort or retry. -/
theorem C4_fanout_isolation (oracle : SchedulePayload → Except String Unit)
    (ctx : UploadContext) (accounts : List ReplizAccount) :
    (fanOutLoop oracle ctx accounts []).length = accounts.length
    ∧ fanOutLoop oracle ctx accounts [] =
        accounts.map (scheduleFor oracle ctx)
    ∧ (∀ account : ReplizAccount, oracle (buildPayload ctx account) = .ok () →
        scheduleFor oracle ctx account =
          { accountId := account.accountId, accountName := account.name,
            accountType := account.type, status := .success, error := none })
    ∧ (∀ (account : ReplizAccount) (e : String),
        oracle (buildPayload ctx account) = .error e →
        scheduleFor oracle ctx account =
          { accountId := account.accountId, accountName := account.name,
            accountType := account.type, status := .error, error := some e }) := by
  refine ⟨?_, ?_, ?_, ?_⟩
  · rw [fanOutLoop_eq]; simp
  · rw [fanOutLoop_eq]; simp
  · intro account hok
    simp [scheduleFor, hok]
  · intro account e he
    simp [scheduleFor, he]

def wCtx : UploadContext :=
  { title := "t", description := "d",
    scheduleAt := "2024-01-01T00:00:00.000Z", filename := "vid.mp4" }

def wAcc1 : ReplizAccount :=
  { accountId := "a1", name := "one", username := "one",
    type := "tiktok", isConnected := true }

def wAcc2 : ReplizAccount :=
  { accountId := "a2", name := "two", username := "two",
    type := "facebook", isConnected := true }

def wAcc3 : ReplizAccount :=
  { accountId := "a3", name := "three", username := "three",
    type := "instagram", isConnected := true }

def wOracle : SchedulePayload → Except String Unit := fun p =>
  if p.accountId = "a2" then .error "Invalid credentials" else .ok ()

/-- Witness for C4: three accounts, the second one's remote call throws. -/
theorem C4_fanout_isolation_witness :
    (fanOutLoop wOracle wCtx [wAcc1, wAcc2, wAcc3] []).length = 3
    ∧ scheduleFor wOracle wCtx wAcc2 =
        { accountId := "a2", accountName := "two", accountType := "facebook",
          status := .error, error := some "Invalid credentials" }
    ∧ scheduleFor wOracle wCtx wAcc3 =
        { accountId := "a3", accountName := "three",
          accountType := "instagram", status := .success, error := none } := by
  obtain ⟨h1, h2, h3, h4⟩ := C4_fanout_isolation wOracle wCtx [wAcc1, wAcc2, wAcc3]
  refine ⟨?_, h4 wAcc2 "Invalid credentials" (by rfl), h3 wAcc3 (by rfl)⟩
  rw [h1]
  rfl

/-- **C6**: under any sequence of `incrementQuota`/`decrementQuota` calls
with non-negative byte arguments all four numeric fields stay ≥ 0 at every
point, and `decrementQuota` is a no-op when no record exists. -/
theorem C6_quota_never_negative (ops : List QuotaOp) (st : Option QuotaRecord)
    (hb : ∀ op ∈ ops, 0 ≤ op.bytes) (h0 : quotaNonneg st) :
    (∀ i : Nat, quotaNonneg (runQuotaOps st (ops.take i)))
    ∧ (∀ fileSizeBytes now : Int, decrementQuota fileSizeBytes now none = none) := by
  refine ⟨?_, fun _ _ => rfl⟩
  intro i
  exact runQuotaOps_nonneg (ops.take i) st
    (fun op hop => hb op (List.take_subset i ops hop)) h0

def wQuotaRec : QuotaRecord :=
  { id := "q", userId := "u", dailyUploads := 0, monthlyUploads := 3,
    dailyBytesUsed := 0, monthlyBytesUsed := 100,
    lastResetDaily := 0, lastResetMonthly := 0, updatedAt := 0 }

/-- Witness for C6: a decrement that would underflow three fields, then an
increment; every point stays non-negative. -/
theorem C6_quota_never_negative_witness :
    quotaNonneg (runQuotaOps (some wQuotaRec)
      ([QuotaOp.dec 500 1, QuotaOp.inc 200 2].take 2)) :=
  (C6_quota_never_negative [QuotaOp.dec 500 1, QuotaOp.inc 200 2]
    (some wQuotaRec) (by decide) (by decide)).1 2

/-- **C7**: the lazy window resets are independent — a due daily reset
zeroes only the daily fields and stamps only `lastResetDaily`, leaving every
monthly field unchanged, and symmetrically for a due monthly reset. -/
theorem C7_lazy_reset_independence (newId userId : String) (now bytes : Int)
    (q : QuotaRecord) :
    (dayInMs ≤ now - q.lastResetDaily → now - q.lastResetMonthly < monthInMs →
      (checkQuota newId userId now bytes (some q)).2 =
        some { q with dailyUploads := 0, dailyBytesUsed := 0,
                      lastResetDaily := now, updatedAt := now })
    ∧ (now - q.lastResetDaily < dayInMs → monthInMs ≤ now - q.lastResetMonthly →
      (checkQuota newId userId now bytes (some q)).2 =
        some { q with monthlyUploads := 0, monthlyBytesUsed := 0,
                      lastResetMonthly := now, updatedAt := now }) := by
  constructor
  · intro hd hm
    rw [checkQuota_snd]
    simp [lazyResetRecord, applyDailyReset, applyMonthlyReset, hd,
      not_le.mpr hm]
  · intro hd hm
    rw [checkQuota_snd]
    simp [lazyResetRecord, applyDailyReset, applyMonthlyReset, hm,
      not_le.mpr hd]

def wStaleDaily : QuotaRecord :=
  { id := "q", userId := "u", dailyUploads := 5, monthlyUploads := 7,
    dailyBytesUsed := 123, monthlyBytesUsed := 456,
    lastResetDaily := 0, lastResetMonthly := 0, updatedAt := 0 }

/-- Witness for C7: `lastResetDaily` 25 hours in the past, `lastResetMonthly`
also 25 hours in the past (well under 30 days): only the daily fields reset. -/
theorem C7_lazy_reset_independence_witness :
    (checkQuota "n" "u" (25 * 60 * 60 * 1000) 10 (some wStaleDaily)).2 =
      some { wStaleDaily with
        dailyUploads := 0
        dailyBytesUsed := 0
        lastResetDaily := 25 * 60 * 60 * 1000
        updatedAt := 25 * 60 * 60 * 1000 } :=
  (C7_lazy_reset_independence "n" "u" (25 * 60 * 60 * 1000) 10 wStaleDaily).1
    (by decide) (by decide)

/-- **C8** (counterexample): `checkQuota` is not state-free — on a user with
no record it inserts one, and on a record whose daily window has lapsed it
writes the reset back. -/
theorem C8_checkQuota_mutates :
    (checkQuota "fresh" "u1" 0 0 none).2 ≠ none
    ∧ (checkQuota "fresh" "u1" dayInMs 0 (some (initQuotaRecord "q0" "u1" 0))).2
        ≠ some (initQuotaRecord "q0" "u1" 0) := by
  constructor
  · rw [checkQuota_snd]
    simp
  · rw [checkQuota_snd]
    decide

/-- **C8** (amended): `checkQuota` never mutates stored state beyond lazy
record creation and lazy window resets — when the record exists and neither
window has lapsed the stored state is unchanged, and the state it leaves
never depends on the incoming byte count or the admission decision. -/
theorem C8_checkQuota_steady_state (newId userId : String)
    (now bytes bytes2 : Int) (q : QuotaRecord)
    (hd : now - q.lastResetDaily < dayInMs)
    (hm : now - q.lastResetMonthly < monthInMs) :
    (checkQuota newId userId now bytes (some q)).2 = some q
    ∧ ∀ st : Option QuotaRecord,
        (checkQuota newId userId now bytes st).2 =
          (checkQuota newId userId now bytes2 st).2 := by
  constructor
  · rw [checkQuota_snd]
    simp [lazyResetRecord, applyDailyReset, applyMonthlyReset,
      not_le.mpr hd, not_le.mpr hm]
  · intro st
    rw [checkQuota_snd, checkQuota_snd]

def wFreshRec : QuotaRecord :=
  { id := "q", userId := "u", dailyUploads := 2, monthlyUploads := 2,
    dailyBytesUsed := 10, monthlyBytesUsed := 10,
    lastResetDaily := 50, lastResetMonthly := 50, updatedAt := 50 }

/-- Witness for C8 (amended): a steady-state record is left untouched. -/
theorem C8_checkQuota_steady_state_witness :
    (checkQuota "n" "u" 100 7 (some wFreshRec)).2 = some wFreshRec :=
  (C8_checkQuota_steady_state "n" "u" 100 7 123 wFreshRec
    (by decide) (by decide)).1

/-! ## Branch lemmas for the upload handler -/

/-- When `getAccounts` throws, the handler deletes the freshly stored object
and rejects with 400, restoring the state exactly. -/
theorem handleUploadAfterValidation_getAccountsError (req : UploadRequest)
    (filename scheduleAt e : String)
    (oracle : SchedulePayload → Except String Unit) (st : PipelineState)
    (hfresh : filename ∉ st.r2) :
    handleUploadAfterValidation req filename scheduleAt (.error e) oracle st =
      (.errorGetAccounts e, st) := by
  simp only [handleUploadAfterValidation]
  rw [r2deleteKey_put_fresh filename st.r2 hfresh]

/-- When the resolved account list is empty, the handler deletes the freshly
stored object and rejects with 400, restoring the state exactly. -/
theorem handleUploadAfterValidation_noAccounts (req : UploadRequest)
    (filename scheduleAt : String)
    (oracle : SchedulePayload → Except String Unit) (st : PipelineState)
    (hfresh : filename ∉ st.r2) :
    handleUploadAfterValidation req filename scheduleAt (.ok []) oracle st =
      (.errorNoAccounts, st) := by
  simp only [handleUploadAfterValidation]
  rw [r2deleteKey_put_fresh filename st.r2 hfresh]
  simp

/-- With a non-empty account list the handler keeps the stored object and
answers from the fan-out results alone. -/
theorem handleUploadAfterValidation_someAccounts (req : UploadRequest)
    (filename scheduleAt : String)
    (oracle : SchedulePayload → Except String Unit) (st : PipelineState)
    (accounts : List ReplizAccount) (hne : accounts.length ≠ 0) :
    handleUploadAfterValidation req filename scheduleAt (.ok accounts) oracle st =
      (let results := fanOutLoop oracle
        { title := req.title, description := req.description,
          scheduleAt := scheduleAt, filename := filename }
        (targetAccountsOf req accounts) []
      if (results.filter UploadResult.isSuccess).length = 0 then
        (.errorAllFailed results, { st with r2 := r2put filename st.r2 })
      else
        (.success results, { st with r2 := r2put filename st.r2 })) := by
  simp only [handleUploadAfterValidation, if_neg hne]

/-- If every target's remote call throws, the fan-out yields no success. -/
theorem fanOut_all_error (oracle : SchedulePayload → Except String Unit)
    (ctx : UploadContext) (accounts : List ReplizAccount)
    (hfail : ∀ a ∈ accounts, ∃ e, oracle (buildPayload ctx a) = .error e) :
    (fanOutLoop oracle ctx accounts []).filter UploadResult.isSuccess = [] := by
  rw [fanOutLoop_eq, List.nil_append, List.filter_eq_nil_iff]
  intro r hr
  obtain ⟨a, ha, rfl⟩ := List.mem_map.mp hr
  obtain ⟨e, he⟩ := hfail a ha
  simp [scheduleFor, he, UploadResult.isSuccess]

/-! ## Upload-route claims -/

def wValidReq : UploadRequest :=
  { hasKeys := true, hasSecret := true, hasVideo := true, hasTitle := true,
    hasDescription := true, metadataValid := true, videoType := "video/mp4",
    videoSize := 1000000, title := "t", description := "d", platforms := none }

def wQuotaAtLimit : QuotaRecord :=
  { id := "q1", userId := "u1", dailyUploads := 10, monthlyUploads := 10,
    dailyBytesUsed := 0, monthlyBytesUsed := 0,
    lastResetDaily := 0, lastResetMonthly := 0, updatedAt := 0 }

def wOkOracle : SchedulePayload → Except String Unit := fun _ => .ok ()

def wSt0 : PipelineState :=
  { r2 := [], quota := some wQuotaAtLimit, uploads := [] }

/-- **C1**: the endpoint does not execute the specified step order — a valid
upload by a user whose quota record is exhausted (`dailyUploads` at the
daily limit, so `checkQuota` denies) is accepted with status 200, the object
is stored, no 429 is produced, and neither the quota row nor the `uploads`
table is ever touched: the quota-check and commit-accounting steps are
skipped entirely by `src/routes/upload.ts`. -/
theorem C1_no_quota_gate :
    (checkQuota "fresh" "u1" 0 1000000 (some wQuotaAtLimit)).1.allowed = false
    ∧ (handleUpload wValidReq "f.mp4" "2024-01-01T00:00:00.000Z"
        (.ok [wAcc1]) wOkOracle wSt0).1.statusCode = 200
    ∧ "f.mp4" ∈ (handleUpload wValidReq "f.mp4" "2024-01-01T00:00:00.000Z"
        (.ok [wAcc1]) wOkOracle wSt0).2.r2
    ∧ (handleUpload wValidReq "f.mp4" "2024-01-01T00:00:00.000Z"
        (.ok [wAcc1]) wOkOracle wSt0).2.quota = some wQuotaAtLimit
    ∧ (handleUpload wValidReq "f.mp4" "2024-01-01T00:00:00.000Z"
        (.ok [wAcc1]) wOkOracle wSt0).2.uploads = [] := by
  decide

/-- **C2**: a `getAccounts` failure and an empty resolved account list both
take the identical rollback path: the stored object is removed from the
bucket and the final state equals the pre-upload state exactly (object
absent, quota at its pre-upload value, no lifecycle record), before a
400 rejection. -/
theorem C2_resolution_failure_rollback (req : UploadRequest)
    (filename scheduleAt e : String)
    (oracle : SchedulePayload → Except String Unit) (st : PipelineState)
    (hv : validationOk req = true) (hfresh : filename ∉ st.r2) :
    (handleUpload req filename scheduleAt (.error e) oracle st).2 = st
    ∧ (handleUpload req filename scheduleAt (.error e) oracle st).1.statusCode = 400
    ∧ (handleUpload req filename scheduleAt (.ok []) oracle st).2 = st
    ∧ (handleUpload req filename scheduleAt (.ok []) oracle st).1.statusCode = 400
    ∧ (handleUpload req filename scheduleAt (.ok []) oracle st).2 =
        (handleUpload req filename scheduleAt (.error e) oracle st).2 := by
  rw [handleUpload_of_validationOk req filename scheduleAt (.error e) oracle st hv,
    handleUpload_of_validationOk req filename scheduleAt (.ok []) oracle st hv,
    handleUploadAfterValidation_getAccountsError req filename scheduleAt e oracle st hfresh,
    handleUploadAfterValidation_noAccounts req filename scheduleAt oracle st hfresh]
  exact ⟨rfl, rfl, rfl, rfl, rfl⟩

/-- Witness for C2: a concrete valid request against an empty bucket. -/
theorem C2_resolution_failure_rollback_witness :
    (handleUpload wValidReq "f.mp4" "2024-01-01T00:00:00.000Z"
      (.error "boom") wOkOracle wSt0).2 = wSt0 :=
  (C2_resolution_failure_rollback wValidReq "f.mp4" "2024-01-01T00:00:00.000Z"
    "boom" wOkOracle wSt0 (by decide) (by decide)).1

def wFailOracle : SchedulePayload → Except String Unit := fun _ =>
  .error "boom"

/-- **C5**: when every fan-out target fails the endpoint answers
`errorAllFailed` (statusCode 500) carrying the full per-account results
array — one entry per target — and performs no rollback: the stored object
stays in the bucket and the quota row and `uploads` table are untouched. -/
theorem C5_all_failed_no_rollback (req : UploadRequest)
    (filename scheduleAt : String)
    (oracle : SchedulePayload → Except String Unit) (st : PipelineState)
    (accounts : List ReplizAccount)
    (hv : validationOk req = true) (hne : accounts.length ≠ 0)
    (hfail : ∀ a ∈ targetAccountsOf req accounts,
      ∃ e, oracle (buildPayload
        { title := req.title, description := req.description,
          scheduleAt := scheduleAt, filename := filename } a) = .error e) :
    (handleUpload req filename scheduleAt (.ok accounts) oracle st).1 =
        .errorAllFailed (fanOutLoop oracle
          { title := req.title, description := req.description,
            scheduleAt := scheduleAt, filename := filename }
          (targetAccountsOf req accounts) [])
    ∧ (handleUpload req filename scheduleAt (.ok accounts) oracle st).1.statusCode = 500
    ∧ (fanOutLoop oracle
        { title := req.title, description := req.description,
          scheduleAt := scheduleAt, filename := filename }
        (targetAccountsOf req accounts) []).length =
        (targetAccountsOf req accounts).length
    ∧ (handleUpload req filename scheduleAt (.ok accounts) oracle st).2.r2 =
        filename :: st.r2
    ∧ (handleUpload req filename scheduleAt (.ok accounts) oracle st).2.quota = st.quota
    ∧ (handleUpload req filename scheduleAt (.ok accounts) oracle st).2.uploads = st.uploads := by
  have hzero := fanOut_all_error oracle
    { title := req.title, description := req.description,
      scheduleAt := scheduleAt, filename := filename }
    (targetAccountsOf req accounts) hfail
  rw [handleUpload_of_validationOk req filename scheduleAt (.ok accounts) oracle st hv,
    handleUploadAfterValidation_someAccounts req filename scheduleAt oracle st accounts hne]
  simp only [hzero, List.length_nil, if_pos rfl]
  refine ⟨rfl, rfl, ?_, rfl, rfl, rfl⟩
  rw [fanOutLoop_eq, List.nil_append, List.length_map]

/-- Witness for C5: one connected account whose remote call throws. -/
theorem C5_all_failed_no_rollback_witness :
    (handleUpload wValidReq "f.mp4" "2024-01-01T00:00:00.000Z"
      (.ok [wAcc1]) wFailOracle wSt0).1.statusCode = 500
    ∧ (handleUpload wValidReq "f.mp4" "2024-01-01T00:00:00.000Z"
        (.ok [wAcc1]) wFailOracle wSt0).2.r2 = ["f.mp4"] :=
  ⟨(C5_all_failed_no_rollback wValidReq "f.mp4" "2024-01-01T00:00:00.000Z"
      wFailOracle wSt0 [wAcc1] (by decide) (by decide)
      (fun a _ => ⟨"boom", rfl⟩)).2.1,
   (C5_all_failed_no_rollback wValidReq "f.mp4" "2024-01-01T00:00:00.000Z"
      wFailOracle wSt0 [wAcc1] (by decide) (by decide)
      (fun a _ => ⟨"boom", rfl⟩)).2.2.2.1⟩

/-- **C10**: a platform filter matching none of the resolved accounts
produces zero schedule calls and the zero-success error response (500 with
an empty results array) while the stored object is left in the bucket — the
filtered-to-empty case does not take the delete-and-reject path that an
empty resolved list takes. -/
theorem C10_filtered_to_empty (req : UploadRequest)
    (filename scheduleAt : String)
    (oracle : SchedulePayload → Except String Unit) (st : PipelineState)
    (accounts : List ReplizAccount) (ps : List String)
    (hv : validationOk req = true) (hne : accounts.length ≠ 0)
    (hps : req.platforms = some ps)
    (hnone : accounts.filter (fun a => ps.contains a.type) = []) :
    (handleUpload req filename scheduleAt (.ok accounts) oracle st).1 =
        .errorAllFailed []
    ∧ (handleUpload req filename scheduleAt (.ok accounts) oracle st).1.statusCode = 500
    ∧ (handleUpload req filename scheduleAt (.ok accounts) oracle st).2.r2 =
        filename :: st.r2
    ∧ (handleUpload req filename scheduleAt (.ok accounts) oracle st).2.quota = st.quota
    ∧ (handleUpload req filename scheduleAt (.ok accounts) oracle st).2.uploads = st.uploads := by
  have htgt : targetAccountsOf req accounts = [] := by
    simp only [targetAccountsOf, hps]
    exact hnone
  rw [handleUpload_of_validationOk req filename scheduleAt (.ok accounts) oracle st hv,
    handleUploadAfterValidation_someAccounts req filename scheduleAt oracle st accounts hne]
  simp only [htgt, fanOutLoop, List.filter_nil, List.length_nil, if_pos rfl]
  exact ⟨rfl, rfl, rfl, rfl, rfl⟩

def wFilteredReq : UploadRequest :=
  { wValidReq with platforms := some ["youtube"] }

/-- Witness for C10: the caller asks for youtube only while the single
connected account is tiktok. -/
theorem C10_filtered_to_empty_witness :
    (handleUpload wFilteredReq "f.mp4" "2024-01-01T00:00:00.000Z"
      (.ok [wAcc1]) wOkOracle wSt0).1 = .errorAllFailed []
    ∧ (handleUpload wFilteredReq "f.mp4" "2024-01-01T00:00:00.000Z"
        (.ok [wAcc1]) wOkOracle wSt0).2.r2 = ["f.mp4"] :=
  ⟨(C10_filtered_to_empty wFilteredReq "f.mp4" "2024-01-01T00:00:00.000Z"
      wOkOracle wSt0 [wAcc1] ["youtube"] (by decide) (by decide) rfl
      (by decide)).1,
   (C10_filtered_to_empty wFilteredReq "f.mp4" "2024-01-01T00:00:00.000Z"
      wOkOracle wSt0 [wAcc1] ["youtube"] (by decide) (by decide) rfl
      (by decide)).2.2.1⟩

/-! ## Deletion idempotence (C9) -/

def wRecA : UploadRecord :=
  { id := "r1", userId := "u1", filename := "f1", fileSizeBytes := 5,
    mimeType := "video/mp4", title := "t", description := "d",
    uploadedAt := 0, scheduledDeletionAt := 100, isDeleted := false,
    deletedAt := none }

def wOkDelete : String → Except String Unit := fun _ => .ok ()

/-- **C9** (counterexample): the second `deleteUpload` call on the same
filename succeeds but is not a no-op on the record — the source guards only
on the record's existence, not on `isDeleted`, so the second call re-runs
the update and refreshes `deletedAt` to its own wall-clock time. -/
theorem C9_second_delete_not_noop :
    deleteUpload wOkDelete 0 "f1" [wRecA] =
      .ok [{ wRecA with isDeleted := true, deletedAt := some 0 }]
    ∧ deleteUpload wOkDelete 5 "f1"
        [{ wRecA with isDeleted := true, deletedAt := some 0 }] =
      .ok [{ wRecA with isDeleted := true, deletedAt := some 5 }]
    ∧ ({ wRecA with isDeleted := true, deletedAt := some 5 } : UploadRecord) ≠
        { wRecA with isDeleted := true, deletedAt := some 0 } :=
  ⟨rfl, rfl, by decide⟩

/-- **C9** (amended): `deleteUpload` twice on the same filename succeeds both
times with no error and no accounting effect; the second call leaves
`isDeleted = true` and only refreshes `deletedAt` to its own time; a sweep
never selects a record already marked deleted; when no record matches, the
object deletion still proceeds and the table is returned unchanged; and a
failure of the object-store delete propagates to the caller. -/
theorem C9_deleteUpload_idempotent (r2d : String → Except String Unit)
    (now1 now2 : Int) (f : String) (db : List UploadRecord)
    (u0 : UploadRecord) (hok : r2d f = .ok ())
    (hfind : db.find? (fun u => u.filename == f) = some u0) :
    deleteUpload r2d now1 f db = .ok (markDeleted u0.id now1 db)
    ∧ deleteUpload r2d now2 f (markDeleted u0.id now1 db) =
        .ok (markDeleted u0.id now2 db)
    ∧ (∀ u ∈ markDeleted u0.id now2 db, u.id = u0.id →
        u.isDeleted = true ∧ u.deletedAt = some now2)
    ∧ (∀ (g : String → Except String Unit) (e : String)
        (db' : List UploadRecord),
        g f = .error e → deleteUpload g now1 f db' = .error e)
    ∧ (∀ db' : List UploadRecord,
        db'.find? (fun u => u.filename == f) = none →
        deleteUpload r2d now1 f db' = .ok db')
    ∧ (∀ (n : Int) (u : UploadRecord), u.isDeleted = true →
        isExpired n u = false) := by
  refine ⟨?_, ?_, ?_, ?_, ?_, ?_⟩
  · simp only [deleteUpload, hok, hfind]
  · have hfind2 : (markDeleted u0.id now1 db).find?
        (fun u => u.filename == f) =
        some { u0 with isDeleted := true, deletedAt := some now1 } := by
      rw [markDeleted_find?, hfind]
      simp
    simp only [deleteUpload, hok, hfind2]
    rw [markDeleted_markDeleted]
  · intro u hu hid
    simp only [markDeleted] at hu
    obtain ⟨v, hv, rfl⟩ := List.mem_map.mp hu
    by_cases h : v.id = u0.id
    · simp [h]
    · rw [if_neg h] at hid
      exact absurd hid h
  · intro g e db' hg
    simp only [deleteUpload, hg]
  · intro db' hnone
    simp only [deleteUpload, hok, hnone]
  · intro n u hdel
    simp [isExpired, hdel]

def wRecB : UploadRecord :=
  { id := "r2", userId := "u1", filename := "f2", fileSizeBytes := 7,
    mimeType := "video/mp4", title := "t", description := "d",
    uploadedAt := 0, scheduledDeletionAt := 100, isDeleted := false,
    deletedAt := none }

/-- Witness for C9 (amended): a concrete record deleted twice, both calls
succeeding. -/
theorem C9_deleteUpload_idempotent_witness :
    deleteUpload wOkDelete 1 "f2" [wRecB] =
      .ok (markDeleted wRecB.id 1 [wRecB])
    ∧ deleteUpload wOkDelete 2 "f2" (markDeleted wRecB.id 1 [wRecB]) =
      .ok (markDeleted wRecB.id 2 [wRecB]) := by
  obtain ⟨h1, h2, -, -, -, -⟩ :=
    C9_deleteUpload_idempotent wOkDelete 1 2 "f2" [wRecB] wRecB rfl (by decide)
  exact ⟨h1, h2⟩

end Repliz
